import Mathlib

set_option maxHeartbeats 1000000

namespace QSnap

/-- A pixel as the four 16-bit channel values returned by Go's color.Color.RGBA():
alpha-premultiplied red, green, blue and alpha, exactly the quadruple compared in
pixelDiff (internal/diff/diff.go lines 69-72). -/
structure Pix where
  r : Nat
  g : Nat
  b : Nat
  a : Nat
deriving DecidableEq

/-- An in-memory decoded image: dimensions plus a pixel lookup, the view of
image.Image used by internal/diff/diff.go. Go's png.Decode rejects non-positive
dimensions, recorded here as invariants of every decoded image. -/
structure Image where
  width : Nat
  height : Nat
  pixAt : Nat → Nat → Pix
  width_pos : 0 < width
  height_pos : 0 < height

/-- Number of pixel positions (x,y) with 0 ≤ x < a.width, 0 ≤ y < a.height where
the two images disagree on the full channel quadruple, mirroring the diffCount
loop of pixelDiff (diff.go lines 66-78). -/
def diffCount (a b : Image) : Nat :=
  ((List.range a.height).map (fun y =>
    (List.range a.width).countP (fun x => decide (a.pixAt x y ≠ b.pixAt x y)))).sum

/-- The fixed marker color written into the diff image: color.RGBA{255,0,255,255}
seen through RGBA(), i.e. 16-bit channels (diff.go line 75). -/
def magenta : Pix := ⟨65535, 0, 65535, 65535⟩

/-- The diff image built by pixelDiff: a copy of the baseline with every
mismatched pixel set to the magenta marker (diff.go lines 63-76). -/
def diffImage (a b : Image) : Image where
  width := a.width
  height := a.height
  pixAt := fun x y => if a.pixAt x y ≠ b.pixAt x y then magenta else a.pixAt x y
  width_pos := a.width_pos
  height_pos := a.height_pos

/-- Modelled from the external nfnt/resize call resize.Resize(w, h, b,
resize.NearestNeighbor) (library code, not part of this repository): a
nearest-neighbor resampler producing exactly the requested dimensions; the
claims depend only on the output dimensions, not the kernel. -/
def resizeNN (w h : Nat) (hw : 0 < w) (hh : 0 < h) (src : Image) : Image where
  width := w
  height := h
  pixAt := fun x y => src.pixAt (x * src.width / w) (y * src.height / h)
  width_pos := hw
  height_pos := hh

/-- The candidate image actually compared pixel-by-pixel inside pixelDiff: the
candidate itself when its dimensions already match the baseline, otherwise the
candidate rescaled to the baseline's dimensions (diff.go lines 51-57). -/
def candAligned (a b : Image) : Image :=
  if a.width = b.width ∧ a.height = b.height then b
  else resizeNN a.width a.height a.width_pos a.height_pos b

structure PixelResult where
  pass : Bool
  ratioDiff : ℚ
  diffImagePath : String
deriving DecidableEq

/-- pixelDiff from diff.go lines 50-86: align the candidate to the baseline's
dimensions, count mismatching pixels over the full channel set, return the
mismatch ratio and whether it is within the threshold, together with the diff
image; the post-resize size check of lines 58-60 is kept. Float64 arithmetic
is embedded as exact rational arithmetic. -/
def pixelDiff (a b : Image) (threshold : ℚ) : Except String (PixelResult × Image) :=
  let b2 := candAligned a b
  if a.width = b2.width ∧ a.height = b2.height then
    let dc := diffCount a b2
    let rd : ℚ := (dc : ℚ) / ((a.width * a.height : Nat) : ℚ)
    Except.ok ({ pass := decide (rd ≤ threshold), ratioDiff := rd, diffImagePath := "" },
      diffImage a b2)
  else Except.error "size mismatch after resize"

structure PHashResult where
  pass : Bool
  hammingDistance : Nat
deriving DecidableEq

/-- Hamming distance between two 64-bit fingerprints: the number of bit positions
where they differ. Models goimagehash's ImageHash.Distance, which is the
popcount of the xor of two 64-bit hashes. -/
def hamming64 (x y : Nat) : Nat :=
  ((List.range 64).filter (fun i => decide (x / 2 ^ i % 2 ≠ y / 2 ^ i % 2))).length

/-- pHashDistance from diff.go lines 88-111. The external goimagehash perception
hash of the Lanczos-resampled image (library code, not part of this repository)
is abstracted as a fingerprint function phashOf applied to each input image;
pass iff the Hamming distance between the fingerprints is at most allowed. -/
def pHashDistance (phashOf : Image → Nat) (a b : Image) (allowed : Int) : PHashResult :=
  let hd := hamming64 (phashOf a) (phashOf b)
  { pass := decide ((hd : Int) ≤ allowed), hammingDistance := hd }

/-- File-system view used for the baseline lookup: none models a file that does
not exist (os.Open fails with a not-exist error); some none models a file that
exists but does not decode as PNG; some (some img) decodes to img. -/
def FS : Type := String → Option (Option Image)

inductive CfError where
  | notExist
  | decodeFail
  | sizeMismatch
deriving DecidableEq

/-- os.IsNotExist applied to the modelled error value; none models a nil error,
for which os.IsNotExist returns false. -/
def osIsNotExist : Option CfError → Bool
  | some CfError.notExist => true
  | _ => false

/-- Error text of the modelled errors, as produced by err.Error(). -/
def cfErrorText : CfError → String
  | CfError.notExist => "open baseline: no such file or directory"
  | CfError.decodeFail => "png: invalid format"
  | CfError.sizeMismatch => "size mismatch after resize"

/-- Result of a successful CompareFiles call: the two metric results plus the
list of files persisted during the call (savePNG writes). -/
structure CompareOutcome where
  px : PixelResult
  ph : PHashResult
  written : List (String × Image)

/-- CompareFiles from diff.go lines 113-142: open and decode the baseline, decode
the candidate bytes (buf none models undecodable bytes), run the pixel metric
with the threshold clamped to ≥ 0 (math.Max(0, pxThreshold)), run the perceptual
metric, and persist the diff image only when the pixel comparison failed, in
which case DiffImagePath is set to diffPath. -/
def CompareFiles (fs : FS) (phashOf : Image → Nat) (baselinePath : String)
    (buf : Option Image) (diffPath : String) (pxThreshold : ℚ) (phThreshold : Int) :
    Except CfError CompareOutcome :=
  match fs baselinePath with
  | none => Except.error CfError.notExist
  | some none => Except.error CfError.decodeFail
  | some (some baseImg) =>
    match buf with
    | none => Except.error CfError.decodeFail
    | some img =>
      match pixelDiff baseImg img (max 0 pxThreshold) with
      | Except.error _ => Except.error CfError.sizeMismatch
      | Except.ok (px, diffImg) =>
        let ph := pHashDistance phashOf baseImg img phThreshold
        if px.pass then Except.ok { px := px, ph := ph, written := [] }
        else
          Except.ok { px := { px with diffImagePath := diffPath }, ph := ph, written := [(diffPath, diffImg)] }

/-- One story case as consumed by main: name, relative URL, viewport and the
optional per-case threshold override (config.go OsnapConfig). -/
structure StoryCase where
  name : String
  url : String
  width : Nat
  height : Nat
  threshold : Option Int
deriving DecidableEq

def caseFilename (s : StoryCase) : String :=
  s.name ++ "_" ++ toString s.width ++ "x" ++ toString s.height ++ ".png"

/-- Diff/candidate artifact path for a case (main, src/unnamed/part_000 line 135). -/
def diffPathOf (s : StoryCase) : String :=
  "__image-snapshots__/__diff__/" ++ caseFilename s

/-- Baseline path for a case (main, src/unnamed/part_000 line 136). -/
def baselinePathOf (s : StoryCase) : String :=
  "__image-snapshots__/__base_images__/" ++ caseFilename s

/-- The effective threshold of a case in main lines 153-156: the per-case
override when present, else the base config's threshold. -/
def effThreshold (cfgThreshold : Int) (s : StoryCase) : Int :=
  match s.threshold with
  | some t => t
  | none => cfgThreshold

/-- The base-config threshold validation of config.go lines 156-159: values
outside 0..100 are rejected at load time. -/
def thresholdValidated (t : Int) : Bool := decide (0 ≤ t ∧ t ≤ 100)

structure CaseResult where
  name : String
  url : String
  status : String
  error : String
  outPath : String
  baseline : String
  pixelDiff : Option PixelResult
  percepDiff : Option PHashResult
deriving DecidableEq

/-- One pipeline task of main (src/unnamed/part_000 lines 127-191): capture,
then CompareFiles with the case's effective threshold cast to float (embedded as
the Int → ℚ cast) and a fixed perceptual allowance of 10, then the status
computation, in which os.IsNotExist is applied to the err variable that is
necessarily nil at that point (line 172). Returns the CaseResult written at the
case's index together with the files persisted by the task. -/
def runCase (fs : FS) (phashOf : Image → Nat) (cfgThreshold : Int)
    (capture : Except String (Option Image)) (s : StoryCase) :
    CaseResult × List (String × Image) :=
  match capture with
  | Except.error e =>
    ({ name := s.name, url := s.url, status := "error", error := e,
       outPath := diffPathOf s, baseline := baselinePathOf s,
       pixelDiff := none, percepDiff := none }, [])
  | Except.ok buf =>
    match CompareFiles fs phashOf (baselinePathOf s) buf (diffPathOf s)
        ((effThreshold cfgThreshold s : Int) : ℚ) 10 with
    | Except.error ce =>
      ({ name := s.name, url := s.url, status := "error", error := cfErrorText ce,
         outPath := diffPathOf s, baseline := baselinePathOf s,
         pixelDiff := none, percepDiff := none }, [])
    | Except.ok out =>
      let err : Option CfError := none
      let status :=
        if osIsNotExist err then "no-baseline"
        else if out.px.pass then "pass"
        else "fail"
      ({ name := s.name, url := s.url, status := status, error := "",
         outPath := diffPathOf s, baseline := baselinePathOf s,
         pixelDiff := some out.px, percepDiff := some out.ph }, out.written)

/-- Placeholder story case used only as the default of List.getD. -/
def anyCase : StoryCase := ⟨"", "", 0, 0, none⟩

/-- The Go zero value of report.CaseResult: the content of a slice entry whose
task never ran (all string fields empty, both metric fields nil). -/
def zeroCaseResult : CaseResult :=
  { name := "", url := "", status := "", error := "", outPath := "", baseline := "",
    pixelDiff := none, percepDiff := none }

/-- The number of cases actually processed, from main lines 116-120: with
0 < limit < len(configs) only the first limit cases are submitted, otherwise
all of them. -/
def limitCount (limit : Int) (n : Nat) : Nat :=
  if 0 < limit ∧ limit < (n : Int) then limit.toNat else n

/-- The result list of a whole run: the slice is preallocated with one entry
per entry of the full config list (main line 113), but the loop at lines
116-124 runs only over the possibly limit-truncated prefix, so the task for
index i < limitCount stores its CaseResult at index i and every later entry
keeps the zero value; capOf i is the capture outcome of the i-th task. -/
def runAll (fs : FS) (phashOf : Image → Nat) (cfgThreshold : Int)
    (capOf : Nat → Except String (Option Image)) (limit : Int)
    (cases : List StoryCase) : List CaseResult :=
  (List.range cases.length).map (fun i =>
    if i < limitCount limit cases.length then
      (runCase fs phashOf cfgThreshold (capOf i) (cases.getD i anyCase)).1
    else zeroCaseResult)

structure Report where
  generatedAt : String
  total : Nat
  passed : Nat
  failed : Nat
  noBaseline : Nat
  errored : Nat
  cases : List CaseResult

/-- CountStatus from report.go lines 31-39: the number of cases with the given
status. -/
def CountStatus (cases : List CaseResult) (status : String) : Nat :=
  cases.countP (fun c => decide (c.status = status))

/-- The report built by main lines 196-204. -/
def mkReport (generatedAt : String) (results : List CaseResult) : Report where
  generatedAt := generatedAt
  total := results.length
  passed := CountStatus results "pass"
  failed := CountStatus results "fail"
  noBaseline := CountStatus results "no-baseline"
  errored := CountStatus results "error"
  cases := results

/-- The result-slice write pattern of main lines 113 and 178-187: a preallocated
slice of length n, each task writing its value at its own original index; the
order list is the order in which tasks complete their write. -/
def applyWrites {α : Type} (f : Nat → α) (order : List Nat)
    (init : List (Option α)) : List (Option α) :=
  order.foldl (fun acc i => acc.set i (some (f i))) init

/-- Outcome of a LaunchPool call: the pool returned to the caller (none on
error), the instances that were launched during the call, and the instances
that were torn down before returning. Instances are identified by the integer
id assigned at fill time (browser.go line 72). -/
structure LaunchOutcome where
  pool : Option (List Nat)
  launched : List Nat
  closed : List Nat
deriving DecidableEq

/-- The launch loop of browser.go lines 57-74: launch instances in id order; on
the first failing launchOne, close every already-launched instance of this call
and return no pool. ok i models whether the i-th launchOne call succeeds;
rem is the number of launches still to attempt. -/
def launchLoop (ok : Nat → Bool) : Nat → Nat → List Nat → LaunchOutcome
  | 0, _, acc => ⟨some acc, acc, []⟩
  | rem + 1, i, acc =>
    if ok i then launchLoop ok rem (i + 1) (acc ++ [i])
    else ⟨none, acc, acc⟩

/-- LaunchPool from browser.go lines 52-78: the requested count is clamped to
at least 1, then instances are launched one by one. -/
def LaunchPool (ok : Nat → Bool) (n : Int) : LaunchOutcome :=
  launchLoop ok (if n < 1 then 1 else n.toNat) 0 []

/-- pool.New from pool.go lines 10-17: the capacity of the permit channel, with
the concurrency argument clamped to at least 1. -/
def poolCap (concurrency : Int) : Nat :=
  if concurrency < 1 then 1 else concurrency.toNat

inductive Ev where
  | acquire
  | release
deriving DecidableEq

/-- Admissible completed executions of the worker pool (pool.go Go and Wait,
lines 19-31), as a relation PoolRun cap pending running trace: from a state
with pending tasks not yet admitted and running tasks holding a permit, the
trace of permit events leads to all tasks finished and all permits returned.
Sending on the capacity-cap channel (acquire) is only possible when fewer than
cap permits are held; each running task returns its permit exactly once via the
deferred receive. -/
inductive PoolRun (cap : Nat) : Nat → Nat → List Ev → Prop where
  | done : PoolRun cap 0 0 []
  | acq {p r tr} : r < cap → PoolRun cap p (r + 1) tr →
      PoolRun cap (p + 1) r (Ev.acquire :: tr)
  | rel {p r tr} : PoolRun cap p r tr → PoolRun cap p (r + 1) (Ev.release :: tr)

/-- Number of permits held after processing the events, starting from r held. -/
def heldAfter (r : Nat) : List Ev → Nat
  | [] => r
  | Ev.acquire :: tr => heldAfter (r + 1) tr
  | Ev.release :: tr => heldAfter (r - 1) tr

/-- The waitAny loop of snapshot.go lines 28-43 executed under the context that
Capture actually supplies (see CaptureRun): a deadline-free tab context. The
chromedp.WaitReady call (external library) under such a context returns only
once its selector resolves and stays blocked while it does not, so the loop
remains inside the WaitReady of the current selector until that selector
resolves; advancing to the next selector, the deadline test of line 37 and the
50 ms sleep of line 40 would require a WaitReady error, which a deadline-free
context never produces, so they are reachable only when the selector list is
empty. Step-indexed with one time unit per blocked poll tick; none means the
loop has not returned after fuel ticks. pending is the selector suffix of the
current pass, initially the full list. -/
def waitAnyRun (sels : List String) (res : String → Nat → Bool) (deadline : Nat) :
    List String → Nat → Nat → Option (Except String Unit)
  | _, _, 0 => none
  | [], now, fuel + 1 =>
    if deadline < now then some (Except.error "timeout waiting for any selector")
    else waitAnyRun sels res deadline sels (now + 50) fuel
  | sel :: rest, now, fuel + 1 =>
    if res sel now then some (Except.ok ())
    else waitAnyRun sels res deadline (sel :: rest) (now + 1) fuel

/-- Environment of one Capture call: whether each chromedp step succeeds, the
selector readiness over time, and the screenshot produced on success. -/
structure CaptureEnv where
  viewportOk : Bool
  navigateOk : Bool
  bodyReadyOk : Bool
  resolves : String → Nat → Bool
  screenshotOk : Bool
  shot : Image

/-- Capture from snapshot.go lines 45-64 as written: line 46 builds the tab
context from inst.Ctx and discards the ctx parameter that carries the caller's
per-case deadline, so no deadline governs the sequence. Viewport, navigate and
body-wait outcomes are fields of the environment; the selector wait is the
waitAnyRun execution with deadline now + 10000 ms (the fixed 10-second
argument at line 55). Step-indexed: none means Capture has not returned after
fuel ticks. -/
def CaptureRun (env : CaptureEnv) (waitSelectors : List String) (now fuel : Nat) :
    Option (Except String Image) :=
  if env.viewportOk = false then some (Except.error "emulate viewport failed")
  else if env.navigateOk = false then some (Except.error "navigate failed")
  else if env.bodyReadyOk = false then some (Except.error "wait body failed")
  else
    match waitAnyRun waitSelectors env.resolves (now + 10000) waitSelectors now fuel with
    | none => none
    | some (Except.error e) => some (Except.error e)
    | some (Except.ok _) =>
      if env.screenshotOk = false then some (Except.error "screenshot failed")
      else some (Except.ok env.shot)

theorem candAligned_width (a b : Image) : (candAligned a b).width = a.width := by
  unfold candAligned
  split
  · next h => exact h.1.symm
  · rfl

theorem candAligned_height (a b : Image) : (candAligned a b).height = a.height := by
  unfold candAligned
  split
  · next h => exact h.2.symm
  · rfl

theorem pixelDiff_eq (a b : Image) (t : ℚ) :
    pixelDiff a b t = Except.ok
      ({ pass := decide (((diffCount a (candAligned a b) : ℚ) /
            ((a.width * a.height : Nat) : ℚ)) ≤ t),
         ratioDiff := (diffCount a (candAligned a b) : ℚ) /
            ((a.width * a.height : Nat) : ℚ),
         diffImagePath := "" }, diffImage a (candAligned a b)) := by
  unfold pixelDiff
  rw [if_pos ⟨(candAligned_width a b).symm, (candAligned_height a b).symm⟩]

theorem CompareFiles_ok (fs : FS) (phashOf : Image → Nat) (bp dp : String)
    (a b : Image) (t : ℚ) (phT : Int) (hfs : fs bp = some (some a)) :
    CompareFiles fs phashOf bp (some b) dp t phT = Except.ok
      { px := { pass := decide (((diffCount a (candAligned a b) : ℚ) /
                  ((a.width * a.height : Nat) : ℚ)) ≤ max 0 t),
                ratioDiff := (diffCount a (candAligned a b) : ℚ) /
                  ((a.width * a.height : Nat) : ℚ),
                diffImagePath :=
                  if ((diffCount a (candAligned a b) : ℚ) /
                      ((a.width * a.height : Nat) : ℚ)) ≤ max 0 t then "" else dp },
        ph := pHashDistance phashOf a b phT,
        written :=
          if ((diffCount a (candAligned a b) : ℚ) /
              ((a.width * a.height : Nat) : ℚ)) ≤ max 0 t then []
          else [(dp, diffImage a (candAligned a b))] } := by
  unfold CompareFiles
  rw [hfs]
  dsimp only
  rw [pixelDiff_eq]
  by_cases h : ((diffCount a (candAligned a b) : ℚ) /
      ((a.width * a.height : Nat) : ℚ)) ≤ max 0 t
  · have hc := decide_eq_true h
    rw [hc, if_pos h, if_pos h]
    dsimp only
    rw [if_pos rfl]
  · have hc := decide_eq_false h
    rw [hc, if_neg h, if_neg h]
    dsimp only
    rw [if_neg Bool.false_ne_true]

theorem diffCount_le (a b : Image) : diffCount a b ≤ a.width * a.height := by
  unfold diffCount
  have h1 : ∀ x ∈ (List.range a.height).map (fun y =>
      (List.range a.width).countP (fun x => decide (a.pixAt x y ≠ b.pixAt x y))),
      x ≤ a.width := by
    intro x hx
    rcases List.mem_map.mp hx with ⟨y, _, rfl⟩
    calc (List.range a.width).countP (fun x => decide (a.pixAt x y ≠ b.pixAt x y))
        ≤ (List.range a.width).length := List.countP_le_length _
      _ = a.width := List.length_range _
  calc ((List.range a.height).map (fun y =>
        (List.range a.width).countP (fun x => decide (a.pixAt x y ≠ b.pixAt x y)))).sum
      ≤ ((List.range a.height).map (fun y =>
        (List.range a.width).countP (fun x => decide (a.pixAt x y ≠ b.pixAt x y)))).length
          • a.width := List.sum_le_card_nsmul _ _ h1
    _ = a.height * a.width := by
        simp [List.length_map, List.length_range, smul_eq_mul]
    _ = a.width * a.height := Nat.mul_comm _ _

theorem ratio_le_one (a b : Image) :
    ((diffCount a (candAligned a b) : ℚ) / ((a.width * a.height : Nat) : ℚ)) ≤ 1 := by
  have hpos : (0 : ℚ) < ((a.width * a.height : Nat) : ℚ) := by
    exact_mod_cast Nat.mul_pos a.width_pos a.height_pos
  rw [div_le_one hpos]
  exact_mod_cast diffCount_le a (candAligned a b)

theorem runCase_ok_form (fs : FS) (phashOf : Image → Nat) (cfgThreshold : Int)
    (s : StoryCase) (a b : Image) (hfs : fs (baselinePathOf s) = some (some a)) :
    runCase fs phashOf cfgThreshold (Except.ok (some b)) s =
      ({ name := s.name, url := s.url,
         status :=
           if ((diffCount a (candAligned a b) : ℚ) / ((a.width * a.height : Nat) : ℚ)) ≤
               max 0 ((effThreshold cfgThreshold s : Int) : ℚ) then "pass" else "fail",
         error := "",
         outPath := diffPathOf s, baseline := baselinePathOf s,
         pixelDiff := some
           { pass := decide (((diffCount a (candAligned a b) : ℚ) /
                ((a.width * a.height : Nat) : ℚ)) ≤
                max 0 ((effThreshold cfgThreshold s : Int) : ℚ)),
             ratioDiff := (diffCount a (candAligned a b) : ℚ) /
                ((a.width * a.height : Nat) : ℚ),
             diffImagePath :=
               if ((diffCount a (candAligned a b) : ℚ) /
                   ((a.width * a.height : Nat) : ℚ)) ≤
                   max 0 ((effThreshold cfgThreshold s : Int) : ℚ) then ""
               else diffPathOf s },
         percepDiff := some (pHashDistance phashOf a b 10) },
       if ((diffCount a (candAligned a b) : ℚ) / ((a.width * a.height : Nat) : ℚ)) ≤
           max 0 ((effThreshold cfgThreshold s : Int) : ℚ) then []
       else [(diffPathOf s, diffImage a (candAligned a b))]) := by
  unfold runCase
  dsimp only
  rw [CompareFiles_ok fs phashOf (baselinePathOf s) (diffPathOf s) a b
    ((effThreshold cfgThreshold s : Int) : ℚ) 10 hfs]
  dsimp only [osIsNotExist]
  by_cases h : ((diffCount a (candAligned a b) : ℚ) /
      ((a.width * a.height : Nat) : ℚ)) ≤ max 0 ((effThreshold cfgThreshold s : Int) : ℚ)
  · have hc := decide_eq_true h
    rw [hc]
    simp only [if_pos h]
    simp
  · have hc := decide_eq_false h
    rw [hc]
    simp only [if_neg h]
    simp

/-- C2: for a baseline of w·h pixels and a candidate that, after the rescale
to the baseline's dimensions applied when dimensions differ, mismatches the
baseline on the full channel quadruple (alpha included) in exactly k pixel
positions, CompareFiles reports ratioDiff exactly k/(w·h), and the pixel
result passes iff ratioDiff is at most the threshold clamped to ≥ 0, with
equality at the boundary passing. -/
theorem compareFiles_ratioDiff_exact (fs : FS) (phashOf : Image → Nat)
    (bp dp : String) (a b : Image) (t : ℚ) (phT : Int) (k : Nat)
    (hfs : fs bp = some (some a))
    (hk : diffCount a (candAligned a b) = k) :
    (CompareFiles fs phashOf bp (some b) dp t phT).map (fun o => o.px.ratioDiff)
        = Except.ok ((k : ℚ) / ((a.width * a.height : Nat) : ℚ)) ∧
    ((CompareFiles fs phashOf bp (some b) dp t phT).map (fun o => o.px.pass)
        = Except.ok true ↔
      (k : ℚ) / ((a.width * a.height : Nat) : ℚ) ≤ max 0 t) := by
  subst hk
  rw [CompareFiles_ok fs phashOf bp dp a b t phT hfs]
  refine ⟨rfl, ?_⟩
  simp [Except.map]

/-- Concrete 1×1 baseline used by witnesses. -/
def imgA : Image := ⟨1, 1, fun _ _ => ⟨0, 0, 0, 0⟩, Nat.one_pos, Nat.one_pos⟩

/-- Concrete 1×1 candidate differing from imgA in its single pixel. -/
def imgB : Image := ⟨1, 1, fun _ _ => ⟨1, 0, 0, 0⟩, Nat.one_pos, Nat.one_pos⟩

/-- File system exposing imgA as the only baseline file. -/
def fsA : FS := fun p => if p = "base.png" then some (some imgA) else none

theorem compareFiles_ratioDiff_exact_witness :
    fsA "base.png" = some (some imgA) ∧
    diffCount imgA (candAligned imgA imgB) = 1 ∧
    (CompareFiles fsA (fun _ => 0) "base.png" (some imgB) "diff.png" 0 10).map
        (fun o => o.px.ratioDiff)
      = Except.ok (((1 : Nat) : ℚ) / ((imgA.width * imgA.height : Nat) : ℚ)) ∧
    ((CompareFiles fsA (fun _ => 0) "base.png" (some imgB) "diff.png" 0 10).map
        (fun o => o.px.pass) = Except.ok true ↔
      ((1 : Nat) : ℚ) / ((imgA.width * imgA.height : Nat) : ℚ) ≤ max 0 0) := by
  have h := compareFiles_ratioDiff_exact fsA (fun _ => 0) "base.png" "diff.png"
    imgA imgB 0 10 1 rfl (by decide)
  exact ⟨rfl, by decide, h.1, h.2⟩

theorem runCase_error_form (fs : FS) (phashOf : Image → Nat) (cfgThreshold : Int)
    (buf : Option Image) (s : StoryCase) (hfs : fs (baselinePathOf s) = none) :
    runCase fs phashOf cfgThreshold (Except.ok buf) s =
      ({ name := s.name, url := s.url, status := "error",
         error := cfErrorText CfError.notExist,
         outPath := diffPathOf s, baseline := baselinePathOf s,
         pixelDiff := none, percepDiff := none }, []) := by
  unfold runCase
  dsimp only
  have hcf : CompareFiles fs phashOf (baselinePathOf s) buf (diffPathOf s)
      ((effThreshold cfgThreshold s : Int) : ℚ) 10 = Except.error CfError.notExist := by
    unfold CompareFiles
    rw [hfs]
  rw [hcf]

/-- C1: refuted on the code. When the baseline file does not exist, CompareFiles
returns the os.Open error, main's error branch records the case with terminal
status "error", and the os.IsNotExist test at line 172 runs on an err that is
necessarily nil there, so the status is never "no-baseline"; no diff artifact is
written in this path. -/
theorem runCase_missingBaseline_status_error (fs : FS) (phashOf : Image → Nat)
    (cfgThreshold : Int) (buf : Option Image) (s : StoryCase)
    (hfs : fs (baselinePathOf s) = none) :
    (runCase fs phashOf cfgThreshold (Except.ok buf) s).1.status = "error" ∧
    (runCase fs phashOf cfgThreshold (Except.ok buf) s).1.status ≠ "no-baseline" ∧
    (runCase fs phashOf cfgThreshold (Except.ok buf) s).2 = [] ∧
    osIsNotExist none = false := by
  rw [runCase_error_form fs phashOf cfgThreshold buf s hfs]
  refine ⟨rfl, ?_, rfl, rfl⟩
  dsimp only
  decide

/-- Empty file system: no baseline exists. -/
def fsNone : FS := fun _ => none

/-- Concrete story case used by witnesses. -/
def caseW : StoryCase := ⟨"btn", "/iframe.html?id=btn", 1, 1, none⟩

/-- Second concrete story case used by witnesses. -/
def caseW2 : StoryCase := ⟨"hdr", "/iframe.html?id=hdr", 1, 1, some 0⟩

theorem runCase_missingBaseline_status_error_witness :
    fsNone (baselinePathOf caseW) = none ∧
    (runCase fsNone (fun _ => 0) 0 (Except.ok (some imgB)) caseW).1.status = "error" ∧
    (runCase fsNone (fun _ => 0) 0 (Except.ok (some imgB)) caseW).1.status ≠ "no-baseline" ∧
    (runCase fsNone (fun _ => 0) 0 (Except.ok (some imgB)) caseW).2 = [] := by
  have h := runCase_missingBaseline_status_error fsNone (fun _ => 0) 0
    (some imgB) caseW rfl
  exact ⟨rfl, h.1, h.2.1, h.2.2.1⟩

/-- C3: the pipeline hands the case's integer threshold (validated at load time
to 0..100) directly to CompareFiles as the pixel threshold compared against
ratioDiff, a fraction in [0,1]; hence whenever the effective threshold is at
least 1, the pixel comparison passes for every candidate image and the case's
status is "pass". -/
theorem runCase_threshold_ge_one_passes (fs : FS) (phashOf : Image → Nat)
    (cfgThreshold : Int) (s : StoryCase) (a b : Image)
    (hfs : fs (baselinePathOf s) = some (some a))
    (hval : thresholdValidated (effThreshold cfgThreshold s) = true)
    (h1 : 1 ≤ effThreshold cfgThreshold s) :
    (runCase fs phashOf cfgThreshold (Except.ok (some b)) s).1.status = "pass" ∧
    (runCase fs phashOf cfgThreshold (Except.ok (some b)) s).1.pixelDiff.map
      (fun px => px.pass) = some true := by
  have hle : ((diffCount a (candAligned a b) : ℚ) / ((a.width * a.height : Nat) : ℚ)) ≤
      max 0 ((effThreshold cfgThreshold s : Int) : ℚ) := by
    calc ((diffCount a (candAligned a b) : ℚ) / ((a.width * a.height : Nat) : ℚ))
        ≤ (1 : ℚ) := ratio_le_one a b
      _ ≤ ((effThreshold cfgThreshold s : Int) : ℚ) := by exact_mod_cast h1
      _ ≤ max 0 ((effThreshold cfgThreshold s : Int) : ℚ) := le_max_right _ _
  rw [runCase_ok_form fs phashOf cfgThreshold s a b hfs]
  dsimp only
  rw [if_pos hle, decide_eq_true hle]
  exact ⟨rfl, rfl⟩

/-- File system exposing img as the baseline of story case s. -/
def fsFor (s : StoryCase) (img : Image) : FS :=
  fun p => if p = baselinePathOf s then some (some img) else none

theorem runCase_threshold_ge_one_passes_witness :
    fsFor caseW imgA (baselinePathOf caseW) = some (some imgA) ∧
    thresholdValidated (effThreshold 1 caseW) = true ∧
    1 ≤ effThreshold 1 caseW ∧
    (runCase (fsFor caseW imgA) (fun _ => 0) 1 (Except.ok (some imgB)) caseW).1.status
      = "pass" := by
  have h := runCase_threshold_ge_one_passes (fsFor caseW imgA) (fun _ => 0) 1
    caseW imgA imgB (by rw [fsFor, if_pos rfl]) (by decide) (by decide)
  exact ⟨by rw [fsFor, if_pos rfl], by decide, by decide, h.1⟩

/-- C10: for a case whose capture and comparison both succeed, the perceptual
result is computed and reported alongside the pixel result, the terminal status
is "pass" or "fail" exactly as the pixel metric's pass flag dictates, and the
status is unchanged under any change of the perceptual fingerprint function,
i.e. for every combination of pixel and perceptual outcomes. -/
theorem status_driven_by_pixel_only (fs : FS) (ph1 ph2 : Image → Nat)
    (cfgThreshold : Int) (s : StoryCase) (a b : Image)
    (hfs : fs (baselinePathOf s) = some (some a)) :
    ((runCase fs ph1 cfgThreshold (Except.ok (some b)) s).1.status = "pass" ∨
     (runCase fs ph1 cfgThreshold (Except.ok (some b)) s).1.status = "fail") ∧
    ((runCase fs ph1 cfgThreshold (Except.ok (some b)) s).1.status = "pass" ↔
      (runCase fs ph1 cfgThreshold (Except.ok (some b)) s).1.pixelDiff.map
        (fun px => px.pass) = some true) ∧
    (runCase fs ph1 cfgThreshold (Except.ok (some b)) s).1.percepDiff
      = some (pHashDistance ph1 a b 10) ∧
    (runCase fs ph1 cfgThreshold (Except.ok (some b)) s).1.status
      = (runCase fs ph2 cfgThreshold (Except.ok (some b)) s).1.status := by
  rw [runCase_ok_form fs ph1 cfgThreshold s a b hfs,
      runCase_ok_form fs ph2 cfgThreshold s a b hfs]
  dsimp only
  by_cases h : ((diffCount a (candAligned a b) : ℚ) /
      ((a.width * a.height : Nat) : ℚ)) ≤
      max 0 ((effThreshold cfgThreshold s : Int) : ℚ)
  · rw [if_pos h, decide_eq_true h]
    exact ⟨Or.inl rfl, ⟨fun _ => rfl, fun _ => rfl⟩, rfl, rfl⟩
  · rw [if_neg h, decide_eq_false h]
    refine ⟨Or.inr rfl, ⟨?_, ?_⟩, rfl, rfl⟩
    · intro hx
      exact absurd hx (by decide)
    · intro hx
      have hb := Option.some.inj hx
      dsimp only at hb
      exact absurd hb (by decide)

theorem status_driven_by_pixel_only_witness :
    fsFor caseW imgA (baselinePathOf caseW) = some (some imgA) ∧
    ((runCase (fsFor caseW imgA) (fun _ => 0) 0 (Except.ok (some imgB)) caseW).1.status
        = "pass" ∨
     (runCase (fsFor caseW imgA) (fun _ => 0) 0 (Except.ok (some imgB)) caseW).1.status
        = "fail") ∧
    (runCase (fsFor caseW imgA) (fun _ => 0) 0 (Except.ok (some imgB)) caseW).1.status
      = (runCase (fsFor caseW imgA) (fun _ => 7) 0 (Except.ok (some imgB)) caseW).1.status := by
  have h := status_driven_by_pixel_only (fsFor caseW imgA) (fun _ => 0) (fun _ => 7)
    0 caseW imgA imgB (by rw [fsFor, if_pos rfl])
  exact ⟨by rw [fsFor, if_pos rfl], h.1, h.2.2.2⟩

/-- C6: on a successful comparison, a diff artifact is persisted iff the pixel
comparison fails; on pass nothing is written and DiffImagePath is empty; on
failure exactly the diff image (the baseline copy with mismatched pixels
repainted the magenta marker) is written at diffPath and DiffImagePath names it. -/
theorem diff_artifact_iff_pixel_fail (fs : FS) (phashOf : Image → Nat)
    (bp dp : String) (a b : Image) (t : ℚ) (phT : Int)
    (hfs : fs bp = some (some a)) :
    ((CompareFiles fs phashOf bp (some b) dp t phT).map (fun o => o.written)
        = Except.ok [] ↔
      (CompareFiles fs phashOf bp (some b) dp t phT).map (fun o => o.px.pass)
        = Except.ok true) ∧
    ((CompareFiles fs phashOf bp (some b) dp t phT).map (fun o => o.px.pass)
        = Except.ok true →
      (CompareFiles fs phashOf bp (some b) dp t phT).map (fun o => o.px.diffImagePath)
        = Except.ok "") ∧
    ((CompareFiles fs phashOf bp (some b) dp t phT).map (fun o => o.px.pass)
        = Except.ok false →
      (CompareFiles fs phashOf bp (some b) dp t phT).map (fun o => o.written)
        = Except.ok [(dp, diffImage a (candAligned a b))] ∧
      (CompareFiles fs phashOf bp (some b) dp t phT).map (fun o => o.px.diffImagePath)
        = Except.ok dp) := by
  rw [CompareFiles_ok fs phashOf bp dp a b t phT hfs]
  by_cases h : ((diffCount a (candAligned a b) : ℚ) /
      ((a.width * a.height : Nat) : ℚ)) ≤ max 0 t
  · rw [if_pos h, if_pos h, decide_eq_true h]
    dsimp only [Except.map]
    exact ⟨⟨fun _ => rfl, fun _ => rfl⟩, fun _ => rfl,
      fun hx => absurd (Except.ok.inj hx) (by decide)⟩
  · rw [if_neg h, if_neg h, decide_eq_false h]
    dsimp only [Except.map]
    refine ⟨⟨?_, ?_⟩, ?_, fun _ => ⟨rfl, rfl⟩⟩
    · intro hx
      exact absurd (Except.ok.inj hx) (List.cons_ne_nil _ _)
    · intro hx
      exact absurd (Except.ok.inj hx) (by decide)
    · intro hx
      exact absurd (Except.ok.inj hx) (by decide)

theorem diff_artifact_iff_pixel_fail_witness :
    fsA "base.png" = some (some imgA) ∧
    ((CompareFiles fsA (fun _ => 0) "base.png" (some imgB) "diff.png" 0 10).map
        (fun o => o.written) = Except.ok [] ↔
      (CompareFiles fsA (fun _ => 0) "base.png" (some imgB) "diff.png" 0 10).map
        (fun o => o.px.pass) = Except.ok true) := by
  have h := diff_artifact_iff_pixel_fail fsA (fun _ => 0) "base.png" "diff.png"
    imgA imgB 0 10 rfl
  exact ⟨rfl, h.1⟩

theorem runCase_status_mem (fs : FS) (phashOf : Image → Nat) (cfgThreshold : Int)
    (cap : Except String (Option Image)) (s : StoryCase) :
    (runCase fs phashOf cfgThreshold cap s).1.status = "pass" ∨
    (runCase fs phashOf cfgThreshold cap s).1.status = "fail" ∨
    (runCase fs phashOf cfgThreshold cap s).1.status = "no-baseline" ∨
    (runCase fs phashOf cfgThreshold cap s).1.status = "error" := by
  rcases cap with e | buf
  · exact Or.inr (Or.inr (Or.inr rfl))
  · rcases hcf : CompareFiles fs phashOf (baselinePathOf s) buf (diffPathOf s)
        ((effThreshold cfgThreshold s : Int) : ℚ) 10 with ce | out
    · unfold runCase
      dsimp only
      rw [hcf]
      exact Or.inr (Or.inr (Or.inr rfl))
    · unfold runCase
      dsimp only
      rw [hcf]
      dsimp only [osIsNotExist]
      cases hp : out.px.pass with
      | true => left; simp [hp]
      | false => right; left; simp [hp]

theorem countStatus_partition (l : List CaseResult)
    (h : ∀ c ∈ l, c.status = "pass" ∨ c.status = "fail" ∨
      c.status = "no-baseline" ∨ c.status = "error") :
    l.length = CountStatus l "pass" + CountStatus l "fail" +
      CountStatus l "no-baseline" + CountStatus l "error" := by
  induction l with
  | nil => rfl
  | cons c l ih =>
    have hc := h c (List.mem_cons_self c l)
    have hrec := ih (fun x hx => h x (List.mem_cons_of_mem c hx))
    unfold CountStatus at hrec ⊢
    rcases hc with hc | hc | hc | hc <;>
      simp only [List.countP_cons, hc, List.length_cons, decide_eq_true_eq] <;>
      simp <;> omega

/-- C4 as stated is refuted at a concrete input: a run of two cases with
-limit 1 preallocates two result slots but processes only the first, the
second keeps the zero-value status "", and total = 2 while
passed + failed + noBaseline + errored = 1. -/
theorem report_totals_partition_cex :
    ¬ ((mkReport "" (runAll fsNone (fun _ => 0) 0 (fun _ => Except.error "nav")
          1 [caseW, caseW2])).total =
       (mkReport "" (runAll fsNone (fun _ => 0) 0 (fun _ => Except.error "nav")
          1 [caseW, caseW2])).passed +
       (mkReport "" (runAll fsNone (fun _ => 0) 0 (fun _ => Except.error "nav")
          1 [caseW, caseW2])).failed +
       (mkReport "" (runAll fsNone (fun _ => 0) 0 (fun _ => Except.error "nav")
          1 [caseW, caseW2])).noBaseline +
       (mkReport "" (runAll fsNone (fun _ => 0) 0 (fun _ => Except.error "nav")
          1 [caseW, caseW2])).errored) := by
  decide

/-- C4, amended: in every run whose case list is not truncated by the -limit
flag (limit ≤ 0 or limit ≥ the number of cases), every case ends in exactly
one of the four terminal statuses and the report's totals form a strict
partition: total = passed + failed + noBaseline + errored. Under truncation
(0 < limit < N) the unprocessed slice entries keep the zero-value status "",
so total = N strictly exceeds the sum of the four counts, as the
counterexample shows. -/
theorem report_totals_partition (genAt : String) (fs : FS) (phashOf : Image → Nat)
    (cfgThreshold : Int) (capOf : Nat → Except String (Option Image))
    (limit : Int) (cases : List StoryCase)
    (hlim : ¬ (0 < limit ∧ limit < (cases.length : Int))) :
    (mkReport genAt (runAll fs phashOf cfgThreshold capOf limit cases)).total =
      (mkReport genAt (runAll fs phashOf cfgThreshold capOf limit cases)).passed +
      (mkReport genAt (runAll fs phashOf cfgThreshold capOf limit cases)).failed +
      (mkReport genAt (runAll fs phashOf cfgThreshold capOf limit cases)).noBaseline +
      (mkReport genAt (runAll fs phashOf cfgThreshold capOf limit cases)).errored := by
  have hl : limitCount limit cases.length = cases.length := by
    unfold limitCount
    rw [if_neg hlim]
  dsimp only [mkReport]
  apply countStatus_partition
  intro c hc
  rcases List.mem_map.mp hc with ⟨i, hi, rfl⟩
  have hi2 : i < limitCount limit cases.length := by
    rw [hl]
    exact List.mem_range.mp hi
  rw [if_pos hi2]
  exact runCase_status_mem fs phashOf cfgThreshold (capOf i) (cases.getD i anyCase)

theorem report_totals_partition_witness :
    ¬ (0 < (0 : Int) ∧ (0 : Int) < (([caseW, caseW2] : List StoryCase).length : Int)) ∧
    (mkReport "" (runAll fsNone (fun _ => 0) 0 (fun _ => Except.ok none)
        0 [caseW, caseW2])).total =
      (mkReport "" (runAll fsNone (fun _ => 0) 0 (fun _ => Except.ok none)
        0 [caseW, caseW2])).passed +
      (mkReport "" (runAll fsNone (fun _ => 0) 0 (fun _ => Except.ok none)
        0 [caseW, caseW2])).failed +
      (mkReport "" (runAll fsNone (fun _ => 0) 0 (fun _ => Except.ok none)
        0 [caseW, caseW2])).noBaseline +
      (mkReport "" (runAll fsNone (fun _ => 0) 0 (fun _ => Except.ok none)
        0 [caseW, caseW2])).errored := by
  have h := report_totals_partition "" fsNone (fun _ => 0) 0 (fun _ => Except.ok none)
    0 [caseW, caseW2] (by decide)
  exact ⟨by decide, h⟩

theorem applyWrites_length {α : Type} (f : Nat → α) (order : List Nat)
    (init : List (Option α)) : (applyWrites f order init).length = init.length := by
  induction order generalizing init with
  | nil => rfl
  | cons i rest ih =>
    have h1 : applyWrites f (i :: rest) init =
        applyWrites f rest (init.set i (some (f i))) := rfl
    rw [h1, ih, List.length_set]

theorem applyWrites_getElem?_not_mem {α : Type} (f : Nat → α) (order : List Nat)
    (init : List (Option α)) (j : Nat) (hj : j ∉ order) :
    (applyWrites f order init)[j]? = init[j]? := by
  induction order generalizing init with
  | nil => rfl
  | cons i rest ih =>
    have hji : j ≠ i := fun he => hj (he ▸ List.mem_cons_self i rest)
    have hjr : j ∉ rest := fun hm => hj (List.mem_cons_of_mem i hm)
    have h1 : applyWrites f (i :: rest) init =
        applyWrites f rest (init.set i (some (f i))) := rfl
    rw [h1, ih _ hjr, List.getElem?_set_ne (Ne.symm hji)]

theorem applyWrites_getElem?_mem {α : Type} (f : Nat → α) (order : List Nat)
    (init : List (Option α)) (j : Nat) (hj : j ∈ order) (hlen : j < init.length) :
    (applyWrites f order init)[j]? = some (some (f j)) := by
  induction order generalizing init with
  | nil => cases hj
  | cons i rest ih =>
    have h1 : applyWrites f (i :: rest) init =
        applyWrites f rest (init.set i (some (f i))) := rfl
    by_cases hr : j ∈ rest
    · rw [h1, ih _ hr (by rw [List.length_set]; exact hlen)]
    · rcases List.mem_cons.mp hj with he | he
      · subst he
        rw [h1, applyWrites_getElem?_not_mem f rest _ j hr,
          List.getElem?_set_self hlen]
      · exact absurd he hr

theorem applyWrites_perm {α : Type} (f : Nat → α) (n : Nat) (order : List Nat)
    (h : order.Perm (List.range n)) :
    applyWrites f order (List.replicate n (none : Option α)) =
      (List.range n).map (fun i => some (f i)) := by
  apply List.ext_getElem?
  intro j
  by_cases hj : j < n
  · rw [applyWrites_getElem?_mem f order _ j (h.mem_iff.mpr (List.mem_range.mpr hj))
      (by rw [List.length_replicate]; exact hj)]
    rw [List.getElem?_map, List.getElem?_range hj]
    rfl
  · rw [applyWrites_getElem?_not_mem f order _ j
      (fun hm => hj (List.mem_range.mp (h.mem_iff.mp hm)))]
    rw [List.getElem?_replicate]
    rw [if_neg hj]
    symm
    apply List.getElem?_eq_none
    rw [List.length_map, List.length_range]
    omega

/-- C5: the report's case list always has one slot per submitted case and the
result of the case submitted at index i is stored at index i, for every
completion order of the tasks (any permutation of the indices). -/
theorem results_positional_of_perm (fs : FS) (phashOf : Image → Nat)
    (cfgThreshold : Int) (capOf : Nat → Except String (Option Image))
    (cases : List StoryCase) (order : List Nat)
    (h : order.Perm (List.range cases.length)) :
    applyWrites (fun i => (runCase fs phashOf cfgThreshold (capOf i)
        (cases.getD i anyCase)).1) order (List.replicate cases.length none) =
      (List.range cases.length).map (fun i =>
        some ((runCase fs phashOf cfgThreshold (capOf i) (cases.getD i anyCase)).1)) ∧
    (applyWrites (fun i => (runCase fs phashOf cfgThreshold (capOf i)
        (cases.getD i anyCase)).1) order (List.replicate cases.length none)).length =
      cases.length := by
  refine ⟨applyWrites_perm _ _ _ h, ?_⟩
  rw [applyWrites_length, List.length_replicate]

theorem results_positional_of_perm_witness :
    ([1, 0] : List Nat).Perm (List.range ([caseW, caseW2] : List StoryCase).length) ∧
    (applyWrites (fun i => (runCase fsNone (fun _ => 0) 0 (Except.ok none)
        (([caseW, caseW2] : List StoryCase).getD i anyCase)).1) [1, 0]
      (List.replicate ([caseW, caseW2] : List StoryCase).length none)).length =
      ([caseW, caseW2] : List StoryCase).length := by
  have h := results_positional_of_perm fsNone (fun _ => 0) 0 (fun _ => Except.ok none)
    [caseW, caseW2] [1, 0] (by decide)
  exact ⟨by decide, h.2⟩

theorem launchLoop_fail {ok : Nat → Bool} :
    ∀ (rem i : Nat) (acc : List Nat), (∃ k, k < rem ∧ ok (i + k) = false) →
      (launchLoop ok rem i acc).pool = none ∧
      (launchLoop ok rem i acc).closed = (launchLoop ok rem i acc).launched := by
  intro rem
  induction rem with
  | zero =>
    intro i acc hex
    rcases hex with ⟨k, hk, _⟩
    exact absurd hk (Nat.not_lt_zero k)
  | succ rem ih =>
    intro i acc hex
    rcases hex with ⟨k, hk, hf⟩
    have h0 : launchLoop ok (rem + 1) i acc =
        if ok i = true then launchLoop ok rem (i + 1) (acc ++ [i])
        else ⟨none, acc, acc⟩ := rfl
    by_cases hi : ok i
    · rw [h0, if_pos hi]
      apply ih
      rcases k with _ | k
      · rw [Nat.add_zero] at hf
        rw [hi] at hf
        exact absurd hf (by decide)
      · refine ⟨k, Nat.lt_of_succ_lt_succ hk, ?_⟩
        have he : i + 1 + k = i + (k + 1) := by omega
        rw [he]
        exact hf
    · rw [h0, if_neg hi]
      exact ⟨rfl, rfl⟩

/-- C7: launching a pool is all-or-nothing. If the i-th of the n requested
instance launches fails (all earlier ones having succeeded), LaunchPool closes
every instance it already launched in this call, returns no pool, and the set
of instances still open — launched minus closed — is empty. -/
theorem launchPool_all_or_nothing (ok : Nat → Bool) (n : Int) (i : Nat)
    (hn : 1 ≤ n) (hi : (i : Int) < n)
    (hprev : ∀ j, j < i → ok j = true) (hfail : ok i = false) :
    (LaunchPool ok n).pool = none ∧
    (LaunchPool ok n).closed = (LaunchPool ok n).launched := by
  unfold LaunchPool
  apply launchLoop_fail
  refine ⟨i, ?_, by rw [Nat.zero_add]; exact hfail⟩
  rw [if_neg (by omega : ¬ n < 1)]
  omega

theorem launchPool_all_or_nothing_witness :
    (1 : Int) ≤ 1 ∧ ((0 : Nat) : Int) < 1 ∧
    (LaunchPool (fun _ => false) 1).pool = none ∧
    (LaunchPool (fun _ => false) 1).closed = (LaunchPool (fun _ => false) 1).launched := by
  have h := launchPool_all_or_nothing (fun _ => false) 1 0 (by decide) (by decide)
    (fun j hj => absurd hj (Nat.not_lt_zero j)) rfl
  exact ⟨by decide, by decide, h.1, h.2⟩

theorem poolRun_counts {cap : Nat} : ∀ {p r : Nat} {tr : List Ev},
    PoolRun cap p r tr →
    tr.count Ev.acquire = p ∧ tr.count Ev.release = p + r := by
  intro p r tr h
  induction h with
  | done => exact ⟨rfl, rfl⟩
  | acq hlt hrun ih =>
    rcases ih with ⟨ia, ir⟩
    constructor <;> simp [List.count_cons, ia, ir] <;> omega
  | rel hrun ih =>
    rcases ih with ⟨ia, ir⟩
    constructor <;> simp [List.count_cons, ia, ir] <;> omega

theorem poolRun_bound {cap : Nat} : ∀ {p r : Nat} {tr : List Ev},
    PoolRun cap p r tr → r ≤ cap → ∀ k, heldAfter r (tr.take k) ≤ cap := by
  intro p r tr h
  induction h with
  | done =>
    intro hr k
    cases k <;> exact hr
  | acq hlt hrun ih =>
    intro _ k
    cases k with
    | zero => exact Nat.le_of_lt hlt
    | succ k => exact ih hlt k
  | rel hrun ih =>
    intro hr k
    cases k with
    | zero => exact hr
    | succ k => exact ih (Nat.le_of_succ_le hr) k

/-- C8: the scheduler's permit channel has capacity c clamped to ≥ 1, and in
every admissible completed run of n tasks, at no instant are more than that
many permits held, while each of the n tasks acquires exactly once and
releases exactly once (n acquires and n releases in the whole trace). -/
theorem pool_concurrency_bound (c : Int) (n : Nat) (tr : List Ev)
    (h : PoolRun (poolCap c) n 0 tr) :
    1 ≤ poolCap c ∧
    (∀ k, heldAfter 0 (tr.take k) ≤ poolCap c) ∧
    tr.count Ev.acquire = n ∧ tr.count Ev.release = n := by
  have h1 : 1 ≤ poolCap c := by
    unfold poolCap
    split <;> omega
  refine ⟨h1, poolRun_bound h (Nat.zero_le _), (poolRun_counts h).1, ?_⟩
  have h2 := (poolRun_counts h).2
  omega

/-- Trace of two sequential tasks under capacity 1. -/
def trW : List Ev := [Ev.acquire, Ev.release, Ev.acquire, Ev.release]

theorem pool_concurrency_bound_witness :
    1 ≤ poolCap 1 ∧ heldAfter 0 (trW.take 1) ≤ poolCap 1 ∧
    trW.count Ev.acquire = 2 ∧ trW.count Ev.release = 2 := by
  have hrun : PoolRun (poolCap 1) 2 0 trW :=
    PoolRun.acq (by decide)
      (PoolRun.rel (PoolRun.acq (by decide) (PoolRun.rel PoolRun.done)))
  have h := pool_concurrency_bound 1 2 trW hrun
  exact ⟨h.1, h.2.1 1, h.2.2.1, h.2.2.2⟩

theorem waitAnyRun_blocked {res : String → Nat → Bool}
    (sels : List String) (deadline : Nat) (sel : String) (rest : List String)
    (hres : ∀ s t, res s t = false) :
    ∀ (fuel now : Nat), waitAnyRun sels res deadline (sel :: rest) now fuel = none := by
  intro fuel
  induction fuel with
  | zero => intro now; rfl
  | succ fuel ih =>
    intro now
    have h0 : waitAnyRun sels res deadline (sel :: rest) now (fuel + 1) =
        if res sel now = true then some (Except.ok ())
        else waitAnyRun sels res deadline (sel :: rest) (now + 1) fuel := rfl
    rw [h0, hres sel now, if_neg (by decide : ¬ false = true)]
    exact ih (now + 1)

/-- C9: refuted on the code. Capture at snapshot.go line 46 discards its ctx
parameter and builds the tab context from inst.Ctx, which carries no deadline;
under that context chromedp.WaitReady blocks until its selector resolves, so
when no selector ever resolves the first WaitReady call inside waitAny never
returns, the 10-second deadline check at lines 37-41 is unreachable, and
Capture never returns at all — it hangs instead of returning the timeout
error the claim requires, and in particular never returns a screenshot. -/
theorem capture_never_returns_without_resolve (env : CaptureEnv)
    (sel0 : String) (rest : List String) (now : Nat)
    (hv : env.viewportOk = true) (hn : env.navigateOk = true)
    (hb : env.bodyReadyOk = true)
    (hres : ∀ s t, env.resolves s t = false) :
    ∀ fuel, CaptureRun env (sel0 :: rest) now fuel = none := by
  intro fuel
  unfold CaptureRun
  rw [hv, hn, hb]
  rw [if_neg (by decide), if_neg (by decide), if_neg (by decide)]
  rw [waitAnyRun_blocked (sel0 :: rest) (now + 10000) sel0 rest hres fuel now]

/-- Environment whose selectors never resolve and whose other steps succeed. -/
def envW : CaptureEnv := ⟨true, true, true, fun _ _ => false, true, imgA⟩

theorem capture_never_returns_without_resolve_witness :
    envW.viewportOk = true ∧ envW.navigateOk = true ∧ envW.bodyReadyOk = true ∧
    CaptureRun envW ["#storybook-root", "#root"] 0 300 = none ∧
    CaptureRun envW ["#storybook-root", "#root"] 0 2000 = none := by
  have h := capture_never_returns_without_resolve envW "#storybook-root" ["#root"]
    0 rfl rfl rfl (fun s t => rfl)
  exact ⟨rfl, rfl, rfl, h 300, h 2000⟩

end QSnap
